import Mathlib

set_option maxRecDepth 8192

/-!
Verification development for the rating-menu and hierarchical-menu
connectors of this repository.  The connector logic is embedded shallowly:
the helper/search-parameters collaborator is modelled at the interface the
spec gives for it, and every connector-side function is translated from the
source file it names.
-/

namespace InstantSearchConnectors

namespace RatingMenu

/-- Embeds `getRefinedStar` (connectRatingMenu.js, lines 139-147): the
minimum numeric value among the attribute's current disjunctive refinements,
or `none` when the refinement list is empty.  Refinement values are modelled
as natural numbers (the source maps each one through `Number`). -/
def getRefinedStar : List Nat → Option Nat
  | [] => none
  | x :: xs => some (xs.foldl Nat.min x)

/-- Payload of an insights event, as assembled by `createSendEvent`
(connectRatingMenu.js, lines 15-42). -/
structure InsightsEvent where
  insightsMethod : String
  widgetType : String
  eventType : String
  eventName : String
  filters : List String
deriving DecidableEq

/-- Embeds the three-argument `click` form of the function returned by
`createSendEvent` (connectRatingMenu.js, lines 15-42): an event is emitted
exactly when the clicked value is not already the refined star; non-click
event types return without emitting. -/
def sendEventClick (refinedStar : Option Nat) (attr : String)
    (facetValue : Nat) : Option InsightsEvent :=
  if refinedStar = some facetValue then none
  else some
    { insightsMethod := "clickedFilters"
      widgetType := "ais.ratingMenu"
      eventType := "click"
      eventName := "Filter Applied"
      filters := [attr ++ ">=" ++ toString facetValue] }

/-- Outcome of one `toggleRefinement` call: the disjunctive refinement list
left on the attribute, the insights event sent (if any), and the number of
searches triggered. -/
structure RefineOutcome where
  refinements : List Nat
  event : Option InsightsEvent
  searches : Nat
deriving DecidableEq

/-- Embeds `toggleRefinement` (connectRatingMenu.js, lines 149-159): send the
click event from the pre-mutation state, remove every disjunctive refinement
on the attribute, re-add the range `facetValue .. max` unless the clicked
value was the refined star, then run one search.  The `for` loop adding
`val = facetValue; val <= max; ++val` is `List.range' facetValue (max + 1 - facetValue)`. -/
def toggleRefinement (attr : String) (state : List Nat)
    (facetValue max : Nat) : RefineOutcome :=
  let event := sendEventClick (getRefinedStar state) attr facetValue
  let cleared : List Nat := []
  { refinements :=
      if getRefinedStar state = some facetValue then cleared
      else cleared ++ List.range' facetValue (max + 1 - facetValue)
    event := event
    searches := 1 }

/-- Embeds the `allValues` accumulation of `getWidgetRenderState`
(connectRatingMenu.js, lines 222-235), read off at one threshold `t`: every
slot `0..max` starts at `0`; a facet whose (rounded) value is `0` or exceeds
`max` is skipped; otherwise its count is added to every threshold
`1 ≤ t ≤ value`.  Facet names are modelled as the already-rounded natural
values the source obtains via `Math.round`. -/
def cumulativeCount (facets : List (Nat × Nat)) (max t : Nat) : Nat :=
  facets.foldl
    (fun acc facet =>
      if facet.1 = 0 ∨ max < facet.1 then acc
      else if 1 ≤ t ∧ t ≤ facet.1 then acc + facet.2 else acc)
    0

/-- One entry of the rating ladder (the `StarRatingItems` shape of
connectRatingMenu.js, lines 244-254). -/
structure StarRatingItem where
  stars : List Bool
  name : String
  value : String
  count : Nat
  isRefined : Bool
deriving DecidableEq

/-- Embeds the skip test of the ladder loop (connectRatingMenu.js, line 239):
`refinedStar && star !== refinedStar && count === 0`, with JavaScript
truthiness of `refinedStar` (absent or `0` is falsy). -/
def skipStar (refinedStar : Option Nat) (star count : Nat) : Bool :=
  match refinedStar with
  | none => false
  | some r => !(r == 0) && !(star == r) && (count == 0)

/-- Embeds one iteration of the ladder loop of `getWidgetRenderState`
(connectRatingMenu.js, lines 237-255): either the threshold is skipped or an
item is pushed with stars `i <= star` for `i = 1..max`, stringified name and
value, the cumulative count, and `isRefined` when the threshold is the
refined star. -/
def ratingItemFor (facets : List (Nat × Nat)) (refinedStar : Option Nat)
    (max star : Nat) : Option StarRatingItem :=
  let count := cumulativeCount facets max star
  if skipStar refinedStar star count then none
  else some
    { stars := (List.range' 1 max).map (fun i => decide (i ≤ star))
      name := toString star
      value := toString star
      count := count
      isRefined := decide (refinedStar = some star) }

/-- The thresholds visited by the ladder loop, `max - 1` down to `1`. -/
def starThresholds (max : Nat) : List Nat :=
  (List.range' 1 (max - 1)).reverse

/-- Embeds the `items` list built by `getWidgetRenderState`
(connectRatingMenu.js, lines 222-259) when results are present. -/
def ratingItems (facets : List (Nat × Nat)) (state : List Nat)
    (max : Nat) : List StarRatingItem :=
  (starThresholds max).filterMap
    (ratingItemFor facets (getRefinedStar state) max)

/-- Modelled from the spec: the slice of the external search-parameters
collaborator (spec section 6) that the rating connector reads and writes —
the disjunctive-facet declaration and the disjunctive refinement list for
its single attribute. -/
structure RatingParams where
  facetDeclared : Bool
  refinements : List Nat
deriving DecidableEq

/-- Modelled from the spec: the collaborator's add-refinement operation
appends a value not already present. -/
def addRefinement (l : List Nat) (v : Nat) : List Nat :=
  if v ∈ l then l else l ++ [v]

/-- Embeds `getWidgetUiState` (connectRatingMenu.js, lines 274-288) applied
to the empty ui state: the resulting `ratingMenu[attribute]` slot is the
refined star when it is a number, absent otherwise. -/
def rm_getWidgetUiState (p : RatingParams) : Option Nat :=
  getRefinedStar p.refinements

/-- Embeds `getWidgetSearchParameters` (connectRatingMenu.js, lines 290-312):
clear the attribute's refinements, declare the disjunctive facet, then — when
the ui-state value is absent or `0` (JavaScript `!value`) — leave the
refinement list empty, otherwise add one disjunctive refinement for each
number in `value .. max` (the source's `range({ start, end: max + 1 })`). -/
def rm_getWidgetSearchParameters (p : RatingParams) (max : Nat)
    (uiValue : Option Nat) : RatingParams :=
  let withoutRefinements : RatingParams := { p with refinements := [] }
  let withDisjunctiveFacet : RatingParams :=
    { withoutRefinements with facetDeclared := true }
  match uiValue with
  | none => { withDisjunctiveFacet with refinements := [] }
  | some v =>
      if v = 0 then { withDisjunctiveFacet with refinements := [] }
      else
        (List.range' v (max + 1 - v)).foldl
          (fun params n =>
            { params with refinements := addRefinement params.refinements n })
          withDisjunctiveFacet

/-- Contribution of a single reported facet to the cumulative slot `t`:
the count when the facet survives the guard and covers the threshold,
zero otherwise.  Reading of one `forEach` step of connectRatingMenu.js,
lines 227-235, at a fixed slot. -/
def facetContribution (max t : Nat) (f : Nat × Nat) : Nat :=
  if f.1 = 0 ∨ max < f.1 then 0
  else if 1 ≤ t ∧ t ≤ f.1 then f.2 else 0

/-- Claim-side definition (C2's wording): the sum of the reported counts of
all reported values at or above the threshold. -/
def reportedSumGE (facets : List (Nat × Nat)) (t : Nat) : Nat :=
  ((facets.filter fun f => decide (t ≤ f.1)).map (fun f => f.2)).sum

/-- Amended claim-side definition: the sum of the reported counts of the
reported values between the threshold and `max` inclusive. -/
def reportedSumUpToMax (facets : List (Nat × Nat)) (t max : Nat) : Nat :=
  ((facets.filter fun f => decide (t ≤ f.1 ∧ f.1 ≤ max)).map (fun f => f.2)).sum

end RatingMenu

namespace HierarchicalMenu

/-- Character sequence: the hierarchical model works with explicit character
lists so that path splitting and joining stay executable. -/
abbrev Str := List Char

/-- Hierarchical facet configuration registered under the widget's facet
name (connectHierarchicalMenu.js, lines 283-289). -/
structure HierarchicalFacetConfig where
  attributes : List String
  separator : Str
  rootPath : Option Str
  showParentLevel : Bool
deriving DecidableEq

/-- Modelled from the spec: the slice of the external search-parameters
collaborator (spec section 6) the hierarchical connector reads and writes —
the hierarchical facet declared under the widget's facet name, that facet's
refinement list, and the max-values-per-facet bound. -/
structure HierParams where
  facet : Option HierarchicalFacetConfig
  refinements : List Str
  maxValuesPerFacet : Option Nat
deriving DecidableEq

/-- Fuel-driven worker for `splitOnSep`; the fuel is the length of the
sequence being split, so the zero-fuel branch is never reached on a
non-empty remainder. -/
def splitOnSepGo (sep : Str) : Nat → Str → List Str
  | _, [] => [[]]
  | 0, s => [s]
  | fuel + 1, c :: rest =>
      if !sep.isEmpty && sep.isPrefixOf (c :: rest) then
        [] :: splitOnSepGo sep fuel ((c :: rest).drop sep.length)
      else
        match splitOnSepGo sep fuel rest with
        | [] => [[c]]
        | piece :: pieces => (c :: piece) :: pieces

/-- Modelled from the spec: splitting a character sequence on a separator
sequence, as the collaborator's breadcrumb computation does with the stored
refinement and the facet's configured separator. -/
def splitOnSep (sep s : Str) : List Str :=
  splitOnSepGo sep s.length s

/-- Modelled from the spec: the collaborator's breadcrumb computation — the
facet's first refinement value split on the facet's configured separator;
empty when the facet is not declared, not refined, or refined with the empty
path. -/
def getHierarchicalFacetBreadcrumb (p : HierParams) : List Str :=
  match p.facet with
  | none => []
  | some facet =>
      match p.refinements with
      | [] => []
      | refinement :: _ =>
          if refinement.isEmpty then []
          else splitOnSep facet.separator refinement

/-- Static configuration of one hierarchical-menu widget
(connectHierarchicalMenu.js, lines 64-92). -/
structure HMWidgetConfig where
  attributes : List String
  separator : Str
  rootPath : Option Str
  showParentLevel : Bool
  limit : Nat
  showMore : Bool
  showMoreLimit : Nat
deriving DecidableEq

/-- Embeds `getWidgetUiState` (connectHierarchicalMenu.js, lines 245-261)
applied to the empty ui state: the breadcrumb when non-empty, absent
otherwise. -/
def hm_getWidgetUiState (p : HierParams) : Option (List Str) :=
  let path := getHierarchicalFacetBreadcrumb p
  if path.isEmpty then none else some path

/-- Embeds `getWidgetSearchParameters` (connectHierarchicalMenu.js, lines
263-317): re-declare the hierarchical facet from the widget configuration
(removing any same-named facet together with its refinement), raise the
max-values-per-facet bound to at least the show-more or normal limit, then —
when the ui state has no entry — clear the facet's refinement list, and
otherwise add the ui-state path joined with the widget separator as the
single refinement. -/
def hm_getWidgetSearchParameters (cfg : HMWidgetConfig) (p : HierParams)
    (uiValues : Option (List Str)) : HierParams :=
  let withFacetConfiguration : HierParams :=
    { p with
        facet := some
          { attributes := cfg.attributes
            separator := cfg.separator
            rootPath := cfg.rootPath
            showParentLevel := cfg.showParentLevel }
        refinements := [] }
  let currentMaxValuesPerFacet := withFacetConfiguration.maxValuesPerFacet.getD 0
  let nextMaxValuesPerFacet :=
    Nat.max currentMaxValuesPerFacet
      (if cfg.showMore then cfg.showMoreLimit else cfg.limit)
  let withMaxValuesPerFacet :=
    { withFacetConfiguration with maxValuesPerFacet := some nextMaxValuesPerFacet }
  match uiValues with
  | none => { withMaxValuesPerFacet with refinements := [] }
  | some values =>
      { withMaxValuesPerFacet with
          refinements := [List.intercalate cfg.separator values] }

/-- Embeds `dispose` (connectHierarchicalMenu.js, lines 160-166): remove the
widget's hierarchical facet (with its refinement) and set the
max-values-per-facet query parameter to undefined. -/
def hmDispose (p : HierParams) : HierParams :=
  let removedFacet : HierParams := { p with facet := none, refinements := [] }
  { removedFacet with maxValuesPerFacet := none }

/-- A node of the nested facet-value structure supplied by the results
collaborator: raw `name`, full `path`, count, refinement flag, and an
optional child array. -/
inductive FacetValueNode where
  | mk (name : String) (path : String) (count : Nat) (isRefined : Bool)
      (data : Option (List FacetValueNode))

/-- A rendered hierarchical-menu item: `name` renamed to `label` and `path`
renamed to `value` (connectHierarchicalMenu.js, lines 130-139), children
under `data`. -/
inductive HierarchicalMenuItem where
  | mk (label : String) (value : String) (count : Nat) (isRefined : Bool)
      (data : Option (List HierarchicalMenuItem))

mutual

/-- Embeds the per-node renaming of `_prepareFacetValues`
(connectHierarchicalMenu.js, lines 133-138): child arrays are prepared
recursively, absent `data` stays absent. -/
def prepareNode (limit : Nat) : FacetValueNode → HierarchicalMenuItem
  | .mk name path count isRefined none => .mk name path count isRefined none
  | .mk name path count isRefined (some l) =>
      .mk name path count isRefined (some (prepareListGo limit limit l))

/-- Embeds `facetValues.slice(0, this.getLimit()).map(...)` of
`_prepareFacetValues` (connectHierarchicalMenu.js, lines 130-139), the slice
bound carried as a structural counter. -/
def prepareListGo (limit : Nat) : Nat → List FacetValueNode → List HierarchicalMenuItem
  | _, [] => []
  | 0, _ :: _ => []
  | k + 1, x :: xs => prepareNode limit x :: prepareListGo limit k xs

end

/-- Embeds `_prepareFacetValues` (connectHierarchicalMenu.js, lines 130-139). -/
def prepareFacetValues (limit : Nat) (facetValues : List FacetValueNode) :
    List HierarchicalMenuItem :=
  prepareListGo limit limit facetValues

/-- Embeds `getLimit` (connectHierarchicalMenu.js, lines 114-116). -/
def hmGetLimit (isShowingMore : Bool) (limit showMoreLimit : Nat) : Nat :=
  if isShowingMore then showMoreLimit else limit

/-- Embeds the `items` computation of `getWidgetRenderState`
(connectHierarchicalMenu.js, lines 208-213): `transformItems` applied to the
prepared facet values, or to the empty list when results are absent. -/
def hmItems (transformItems : List HierarchicalMenuItem → List HierarchicalMenuItem)
    (isShowingMore : Bool) (limit showMoreLimit : Nat)
    (results : Option (List FacetValueNode)) : List HierarchicalMenuItem :=
  match results with
  | none => transformItems []
  | some facetValues =>
      transformItems
        (prepareFacetValues (hmGetLimit isShowingMore limit showMoreLimit) facetValues)

mutual

/-- Every child level below an item has at most `limit` entries. -/
def nodeBounded (limit : Nat) : HierarchicalMenuItem → Bool
  | .mk _ _ _ _ none => true
  | .mk _ _ _ _ (some l) => decide (l.length ≤ limit) && allBounded limit l

/-- Conjunction of `nodeBounded` over a list of items. -/
def allBounded (limit : Nat) : List HierarchicalMenuItem → Bool
  | [] => true
  | x :: xs => nodeBounded limit x && allBounded limit xs

end

/-- The top-level list and every nested level hold at most `limit` entries. -/
def levelsBounded (limit : Nat) (l : List HierarchicalMenuItem) : Bool :=
  decide (l.length ≤ limit) && allBounded limit l

/-- Embeds `getHasExhaustiveItems` (connectHierarchicalMenu.js, lines
215-230): false without results; otherwise the facet-value count is compared
with the current limit, non-strictly when the max-values-per-facet bound
(absent compares false) exceeds the limit and strictly otherwise. -/
def getHasExhaustiveItems (resultsPresent : Bool) (maxValuesPerFacet : Option Nat)
    (currentLimit facetValuesLength : Nat) : Bool :=
  if !resultsPresent then false
  else if (match maxValuesPerFacet with
           | some m => decide (currentLimit < m)
           | none => false) then
    decide (facetValuesLength ≤ currentLimit)
  else decide (facetValuesLength < currentLimit)

/-- Embeds the `canToggleShowMore` field of the render state
(connectHierarchicalMenu.js, lines 240-241). -/
def canToggleShowMore (showMore isShowingMore resultsPresent : Bool)
    (maxValuesPerFacet : Option Nat)
    (limit showMoreLimit facetValuesLength : Nat) : Bool :=
  showMore &&
    (isShowingMore ||
      !(getHasExhaustiveItems resultsPresent maxValuesPerFacet
          (hmGetLimit isShowingMore limit showMoreLimit) facetValuesLength))

/-- Claim-side predicate (C8's wording): the externally configured
max-values-per-facet bound is strictly greater than the display limit. -/
def boundExceedsLimit (bound : Option Nat) (displayLimit : Nat) : Prop :=
  match bound with
  | some m => displayLimit < m
  | none => False

/-- Claim-side predicate (C8's wording): the facet values are exhaustive —
only possible with results present; the count is at most the display limit
when the configured bound exceeds that limit, and strictly below it
otherwise. -/
def exhaustiveSpec (resultsPresent : Bool) (bound : Option Nat)
    (displayLimit count : Nat) : Prop :=
  resultsPresent = true ∧
    ((boundExceedsLimit bound displayLimit ∧ count ≤ displayLimit) ∨
     (¬ boundExceedsLimit bound displayLimit ∧ count < displayLimit))

/-- Observable effect of a lifecycle call: an invocation of the render
callback (with the render options used and the show-more flag in force) or a
triggered search. -/
inductive HMEffect (RO : Type) where
  | renderFnCall (renderOptions : RO) (isShowingMore : Bool)
  | searchCall
deriving DecidableEq

/-- Mutable per-instance state of one hierarchical-menu widget: the
`isShowingMore` field and the render options captured by the shared
`toggleShowMore` closure (connectHierarchicalMenu.js, lines 93-116). -/
structure HMInstance (RO : Type) where
  isShowingMore : Bool
  cachedRenderOptions : Option RO
deriving DecidableEq

/-- A freshly constructed widget: show-more off, toggle closure not yet
bound (connectHierarchicalMenu.js, lines 97-105). -/
def hmNewInstance (RO : Type) : HMInstance RO :=
  { isShowingMore := false, cachedRenderOptions := none }

/-- Embeds `render` (connectHierarchicalMenu.js, lines 141-153): rebind the
shared toggle closure to these render options and invoke the render callback
with the current flag; no search is triggered. -/
def hmRender {RO : Type} (w : HMInstance RO) (renderOptions : RO) :
    HMInstance RO × List (HMEffect RO) :=
  ({ w with cachedRenderOptions := some renderOptions },
   [HMEffect.renderFnCall renderOptions w.isShowingMore])

/-- Embeds `cachedToggleShowMore` with `createToggleShowMore`
(connectHierarchicalMenu.js, lines 97-112): before the first render the
shared closure is a no-op; afterwards it flips the flag and immediately
re-renders with the captured render options. -/
def hmToggleShowMore {RO : Type} (w : HMInstance RO) :
    HMInstance RO × List (HMEffect RO) :=
  match w.cachedRenderOptions with
  | none => (w, [])
  | some renderOptions =>
      hmRender { w with isShowingMore := !w.isShowingMore } renderOptions

end HierarchicalMenu

namespace RatingMenu

theorem foldl_min_eq_self (x : Nat) (l : List Nat) (h : ∀ y ∈ l, x ≤ y) :
    l.foldl Nat.min x = x := by
  induction l with
  | nil => rfl
  | cons y ys ih =>
      have hxy : Nat.min x y = x := Nat.min_eq_left (h y (by simp))
      simp only [List.foldl_cons, hxy]
      exact ih (fun z hz => h z (by simp [hz]))

theorem getRefinedStar_range' (v k : Nat) (hk : 0 < k) :
    getRefinedStar (List.range' v k) = some v := by
  obtain ⟨k', rfl⟩ : ∃ k', k = k' + 1 := ⟨k - 1, by omega⟩
  rw [List.range'_succ]
  simp only [getRefinedStar, Option.some.injEq]
  apply foldl_min_eq_self
  intro y hy
  have := List.mem_range'_1.mp hy
  omega

theorem foldl_cumulative (facets : List (Nat × Nat)) (max t acc : Nat) :
    facets.foldl
      (fun acc facet =>
        if facet.1 = 0 ∨ max < facet.1 then acc
        else if 1 ≤ t ∧ t ≤ facet.1 then acc + facet.2 else acc)
      acc = acc + (facets.map (facetContribution max t)).sum := by
  induction facets generalizing acc with
  | nil => simp
  | cons f fs ih =>
      simp only [List.foldl_cons, List.map_cons, List.sum_cons, facetContribution]
      split_ifs with h1 h2 <;> rw [ih] <;> omega

theorem cumulativeCount_eq_sum (facets : List (Nat × Nat)) (max t : Nat) :
    cumulativeCount facets max t = (facets.map (facetContribution max t)).sum := by
  unfold cumulativeCount
  rw [foldl_cumulative]
  omega

theorem cumulativeCount_eq_reported (facets : List (Nat × Nat)) (max t : Nat)
    (h1 : 1 ≤ t) :
    cumulativeCount facets max t = reportedSumUpToMax facets t max := by
  rw [cumulativeCount_eq_sum]
  unfold reportedSumUpToMax
  induction facets with
  | nil => rfl
  | cons f fs ih =>
      rw [List.map_cons, List.sum_cons, List.filter_cons]
      by_cases hc : t ≤ f.1 ∧ f.1 ≤ max
      · rw [if_pos (by simp [hc])]
        rw [List.map_cons, List.sum_cons, ih]
        have hf : facetContribution max t f = f.2 := by
          unfold facetContribution
          split_ifs <;> omega
        omega
      · rw [if_neg (by simp [hc])]
        rw [ih]
        have hf : facetContribution max t f = 0 := by
          unfold facetContribution
          split_ifs <;> omega
        omega

theorem skipStar_none (s c : Nat) : skipStar none s c = false := rfl

theorem skipStar_zero (s c : Nat) : skipStar (some 0) s c = false := by
  simp [skipStar]

theorem skipStar_pos (r s c : Nat) (hr : 1 ≤ r) :
    skipStar (some r) s c = (!(s == r) && (c == 0)) := by
  simp only [skipStar]
  have h0 : (r == 0) = false := by
    simpa using (by omega : r ≠ 0)
  rw [h0]
  simp

theorem ratingItemFor_eq_none (facets : List (Nat × Nat)) (r : Option Nat)
    (max s : Nat) (h : skipStar r s (cumulativeCount facets max s) = true) :
    ratingItemFor facets r max s = none := by
  simp [ratingItemFor, h]

theorem ratingItemFor_fields (facets : List (Nat × Nat)) (r : Option Nat)
    (max s : Nat) (h : skipStar r s (cumulativeCount facets max s) = false) :
    ∃ it, ratingItemFor facets r max s = some it ∧
      it.value = toString s ∧ it.name = toString s ∧
      it.count = cumulativeCount facets max s ∧
      it.isRefined = decide (r = some s) ∧
      it.stars = (List.range' 1 max).map (fun i => decide (i ≤ s)) :=
  ⟨⟨(List.range' 1 max).map (fun i => decide (i ≤ s)), toString s, toString s,
      cumulativeCount facets max s, decide (r = some s)⟩,
    by simp [ratingItemFor, h], rfl, rfl, rfl, rfl, rfl⟩

theorem ratingItemFor_inv (facets : List (Nat × Nat)) (r : Option Nat)
    (max s : Nat) (it : StarRatingItem)
    (h : ratingItemFor facets r max s = some it) :
    it.value = toString s ∧ it.isRefined = decide (r = some s) ∧
    it.stars = (List.range' 1 max).map (fun i => decide (i ≤ s)) := by
  simp only [ratingItemFor] at h
  split at h
  · exact absurd h (by simp)
  · cases h
    exact ⟨rfl, rfl, rfl⟩

theorem filterMap_value_filter (facets : List (Nat × Nat)) (r : Option Nat)
    (max : Nat) (p : Nat → Bool) (l : List Nat)
    (hp : ∀ s ∈ l, skipStar r s (cumulativeCount facets max s) = !(p s)) :
    (l.filterMap (ratingItemFor facets r max)).map (fun it => it.value)
      = (l.filter p).map toString := by
  induction l with
  | nil => rfl
  | cons s ss ih =>
      have hps := hp s (by simp)
      have ihs := ih (fun s' hs' => hp s' (by simp [hs']))
      rw [List.filterMap_cons, List.filter_cons]
      cases hpv : p s with
      | true =>
          rw [hpv] at hps
          simp only [Bool.not_true] at hps
          obtain ⟨it, hit, hval, -, -, -, -⟩ :=
            ratingItemFor_fields facets r max s hps
          rw [hit]
          simp only [List.map_cons, if_true, hpv, ihs, hval]
      | false =>
          rw [hpv] at hps
          simp only [Bool.not_false] at hps
          rw [ratingItemFor_eq_none facets r max s hps]
          simp only [hpv, ihs]
          simp

theorem countP_isRefined_zero (facets : List (Nat × Nat)) (r : Option Nat)
    (max : Nat) (l : List Nat) (h : ∀ s ∈ l, r ≠ some s) :
    (l.filterMap (ratingItemFor facets r max)).countP
      (fun it => it.isRefined) = 0 := by
  induction l with
  | nil => rfl
  | cons s ss ih =>
      have ihs := ih (fun s' hs' => h s' (by simp [hs']))
      rw [List.filterMap_cons]
      cases hfs : ratingItemFor facets r max s with
      | none => exact ihs
      | some it =>
          obtain ⟨-, href, -⟩ := ratingItemFor_inv facets r max s it hfs
          rw [List.countP_cons, ihs, href]
          simp [h s (by simp)]

theorem countP_isRefined_le_one (facets : List (Nat × Nat)) (r : Option Nat)
    (max : Nat) (l : List Nat) (hnd : l.Nodup) :
    (l.filterMap (ratingItemFor facets r max)).countP
      (fun it => it.isRefined) ≤ 1 := by
  induction l with
  | nil => exact Nat.zero_le 1
  | cons s ss ih =>
      have hmem : s ∉ ss := (List.nodup_cons.mp hnd).1
      have ihs := ih (List.nodup_cons.mp hnd).2
      rw [List.filterMap_cons]
      cases hfs : ratingItemFor facets r max s with
      | none => exact ihs
      | some it =>
          obtain ⟨-, href, -⟩ := ratingItemFor_inv facets r max s it hfs
          rw [List.countP_cons, href]
          by_cases hr : r = some s
          · have hz := countP_isRefined_zero facets r max ss
              (fun s' hs' => by
                rw [hr]
                simp only [ne_eq, Option.some.injEq]
                intro he
                exact hmem (he.symm ▸ hs'))
            rw [hz]
            simp [hr]
          · simp [hr, ihs]

theorem stars_pattern (max t : Nat) :
    (List.range' 1 max).map (fun i => decide (i ≤ t))
      = (List.range max).map (fun i => decide (i < t)) := by
  rw [List.range'_eq_map_range, List.map_map]
  apply List.map_congr_left
  intro j _
  simp only [Function.comp]
  exact decide_eq_decide.mpr (by omega)

theorem starThresholds_nodup (max : Nat) : (starThresholds max).Nodup := by
  unfold starThresholds
  rw [List.nodup_reverse]
  exact List.nodup_range' 1 (max - 1)

theorem toggleRefinement_event (attr : String) (state : List Nat)
    (v max : Nat) :
    (toggleRefinement attr state v max).event
      = sendEventClick (getRefinedStar state) attr v := rfl

theorem toggleRefinement_refinements_of_ne (attr : String) (state : List Nat)
    (v max : Nat) (h : getRefinedStar state ≠ some v) :
    (toggleRefinement attr state v max).refinements
      = List.range' v (max + 1 - v) := by
  simp [toggleRefinement, h]

theorem foldl_params_refinements (l : List Nat) (P : RatingParams) :
    (l.foldl
        (fun params n =>
          { params with refinements := addRefinement params.refinements n })
        P).refinements
      = l.foldl addRefinement P.refinements := by
  induction l generalizing P with
  | nil => rfl
  | cons n ns ih => rw [List.foldl_cons, List.foldl_cons, ih]

theorem foldl_addRefinement_nodup (l : List Nat) (acc : List Nat)
    (h : ∀ n ∈ l, n ∉ acc) (hnd : l.Nodup) :
    l.foldl addRefinement acc = acc ++ l := by
  induction l generalizing acc with
  | nil => simp
  | cons n ns ih =>
      rw [List.foldl_cons]
      have hna : addRefinement acc n = acc ++ [n] := by
        simp [addRefinement, h n (by simp)]
      rw [hna, ih (acc ++ [n])]
      · simp
      · intro m hm
        simp only [List.mem_append, List.mem_singleton]
        rintro (hm2 | rfl)
        · exact h m (by simp [hm]) hm2
        · exact (List.nodup_cons.mp hnd).1 hm
      · exact (List.nodup_cons.mp hnd).2

theorem rm_roundtrip (p : RatingParams) (max : Nat)
    (h : ∀ r, getRefinedStar p.refinements = some r → 1 ≤ r ∧ r ≤ max) :
    getRefinedStar
        ((rm_getWidgetSearchParameters p max (rm_getWidgetUiState p)).refinements)
      = getRefinedStar p.refinements := by
  unfold rm_getWidgetUiState
  cases hg : getRefinedStar p.refinements with
  | none => rfl
  | some v =>
      obtain ⟨h1, h2⟩ := h v hg
      have hv0 : ¬ v = 0 := by omega
      simp only [rm_getWidgetSearchParameters, hv0, if_false]
      rw [foldl_params_refinements, foldl_addRefinement_nodup]
      · simp only [List.nil_append]
        exact getRefinedStar_range' v (max + 1 - v) (by omega)
      · intro n _
        simp
      · exact List.nodup_range' v (max + 1 - v)

theorem ratingItemFor_count (facets : List (Nat × Nat))
    (refinedStar : Option Nat) (max t : Nat) (it : StarRatingItem)
    (h : ratingItemFor facets refinedStar max t = some it) :
    it.count = cumulativeCount facets max t := by
  simp only [ratingItemFor] at h
  split at h
  · exact absurd h (by simp)
  · cases h
    rfl

end RatingMenu

namespace RatingMenu

/-- C1: refining with the currently active threshold clears every
disjunctive refinement on the attribute; refining with any other value
leaves exactly the refinement set from that value up to `max`; both cases
trigger exactly one search. -/
theorem rating_refine_toggle (attr : String) (state : List Nat) (v max : Nat) :
    (getRefinedStar state = some v →
      (toggleRefinement attr state v max).refinements = []) ∧
    (getRefinedStar state ≠ some v →
      ∀ n, n ∈ (toggleRefinement attr state v max).refinements
        ↔ (v ≤ n ∧ n ≤ max)) ∧
    (toggleRefinement attr state v max).searches = 1 := by
  refine ⟨fun h => ?_, fun h n => ?_, rfl⟩
  · simp [toggleRefinement, h]
  · rw [toggleRefinement_refinements_of_ne attr state v max h,
      List.mem_range'_1]
    omega

/-- Closed instance of `rating_refine_toggle`: re-clicking the active
threshold three on a three-to-five refinement clears it, and refining from
the empty state puts exactly the values between the clicked threshold and
the maximum. -/
theorem rating_refine_toggle_witness :
    (toggleRefinement "rating" [3, 4, 5] 3 5).refinements = [] ∧
    (3 ∈ (toggleRefinement "rating" [] 3 5).refinements ↔ (3 ≤ 3 ∧ 3 ≤ 5)) :=
  ⟨(rating_refine_toggle "rating" [3, 4, 5] 3 5).1 (by decide),
   (rating_refine_toggle "rating" [] 3 5).2.1 (by decide) 3⟩

/-- C2 fails as stated: with `max = 5`, a single reported facet value `6`
with count `10` is skipped by the ladder accumulation, so the emitted count
for threshold `4` is `0`, not the claimed sum `10` over all reported values
at or above the threshold. -/
theorem rating_ladder_counterexample :
    Option.map StarRatingItem.count
        (ratingItemFor [(6, 10)] (getRefinedStar []) 5 4)
      ≠ some (reportedSumGE [(6, 10)] 4) := by decide

/-- C2 (amended): the count carried by the ladder item for threshold `t` is
the sum of the reported counts of the reported values `v` with
`t ≤ v ≤ max`; in particular the documented ladder scenario holds. -/
theorem rating_ladder_counts :
    (∀ (facets : List (Nat × Nat)) (refinedStar : Option Nat) (max t : Nat)
        (it : StarRatingItem), 1 ≤ t →
        ratingItemFor facets refinedStar max t = some it →
        it.count = reportedSumUpToMax facets t max) ∧
    (ratingItems [(0, 5), (1, 10), (2, 20), (3, 50), (4, 900), (5, 100)] [] 5).map
        (fun it => (it.value, it.count))
      = [("4", 1000), ("3", 1050), ("2", 1070), ("1", 1080)] := by
  constructor
  · intro facets refinedStar max t it h1 h
    rw [ratingItemFor_count facets refinedStar max t it h]
    exact cumulativeCount_eq_reported facets max t h1
  · rfl

/-- Closed instance of `rating_ladder_counts`: the item emitted for
threshold three over one reported value four with count seven carries the
capped cumulative sum. -/
theorem rating_ladder_counts_witness :
    (StarRatingItem.mk [true, true, true, false, false] "3" "3" 7 false).count
      = reportedSumUpToMax [(4, 7)] 3 5 :=
  rating_ladder_counts.1 [(4, 7)] none 5 3 _ (by decide) (by rfl)

/-- C4: the click event is emitted exactly when the pre-click refined star
differs from the clicked value, with the single filter string
`attribute>=value`; hence, refining from the empty state emits one event,
re-clicking the threshold just applied emits none, and switching to a
different threshold emits one more. -/
theorem rating_send_event_policy (attr : String) (state : List Nat) (v max : Nat) :
    ((toggleRefinement attr state v max).event = none
      ↔ getRefinedStar state = some v) ∧
    (∀ e, (toggleRefinement attr state v max).event = some e →
        e.insightsMethod = "clickedFilters" ∧
        e.filters = [attr ++ ">=" ++ toString v]) ∧
    (v ≤ max →
      (toggleRefinement attr [] v max).event ≠ none ∧
      (toggleRefinement attr
          (toggleRefinement attr [] v max).refinements v max).event = none ∧
      ∀ w, w ≠ v →
        (toggleRefinement attr
            (toggleRefinement attr [] v max).refinements w max).event ≠ none) := by
  refine ⟨?_, ?_, fun hv => ?_⟩
  · rw [toggleRefinement_event]
    unfold sendEventClick
    split
    · simp_all
    · simp_all
  · intro e he
    rw [toggleRefinement_event] at he
    unfold sendEventClick at he
    split at he
    · exact absurd he (by simp)
    · cases he
      exact ⟨rfl, rfl⟩
  · have hempty : getRefinedStar ([] : List Nat) ≠ some v := by
      simp [getRefinedStar]
    have hrange : (toggleRefinement attr [] v max).refinements
        = List.range' v (max + 1 - v) :=
      toggleRefinement_refinements_of_ne attr [] v max hempty
    have hmin : getRefinedStar (toggleRefinement attr [] v max).refinements
        = some v := by
      rw [hrange]
      exact getRefinedStar_range' v (max + 1 - v) (by omega)
    refine ⟨?_, ?_, fun w hw => ?_⟩
    · rw [toggleRefinement_event]
      unfold sendEventClick
      rw [if_neg hempty]
      simp
    · rw [toggleRefinement_event]
      unfold sendEventClick
      rw [if_pos hmin]
    · rw [toggleRefinement_event]
      unfold sendEventClick
      rw [if_neg (by rw [hmin]; simpa using fun h => hw h.symm)]
      simp

/-- Closed instance of `rating_send_event_policy`: from the empty state a
click on three emits an event, the immediate re-click emits none, and a
later click on four emits again. -/
theorem rating_send_event_policy_witness :
    (toggleRefinement "grade" [] 3 5).event ≠ none ∧
    (toggleRefinement "grade"
        (toggleRefinement "grade" [] 3 5).refinements 3 5).event = none ∧
    (toggleRefinement "grade"
        (toggleRefinement "grade" [] 3 5).refinements 4 5).event ≠ none := by
  have h := (rating_send_event_policy "grade" [] 3 5).2.2 (by decide)
  exact ⟨h.1, h.2.1, h.2.2 4 (by decide)⟩

/-- C6: at every threshold at least one, the cumulative ladder count at the
next threshold up never exceeds the one below it. -/
theorem rating_cumulative_monotone (facets : List (Nat × Nat)) (max t : Nat)
    (h1 : 1 ≤ t) (h2 : t ≤ max - 1) :
    cumulativeCount facets max (t + 1) ≤ cumulativeCount facets max t := by
  rw [cumulativeCount_eq_sum, cumulativeCount_eq_sum]
  apply List.sum_le_sum
  intro f _
  unfold facetContribution
  split_ifs <;> omega

/-- C5: with results present, the ladder lists every threshold from
`max - 1` down to `1` when nothing is refined; with an active threshold at
least one, exactly the refined threshold and the thresholds of non-zero
cumulative count remain, still in descending order; each item's stars hold
`max` entries true exactly below the threshold; at most one item is refined;
and an in-range refined threshold's item is always present. -/
theorem rating_items_shape (facets : List (Nat × Nat)) (state : List Nat)
    (max : Nat) :
    ((getRefinedStar state = none ∨ getRefinedStar state = some 0) →
      (ratingItems facets state max).map (fun it => it.value)
        = (starThresholds max).map toString) ∧
    (∀ r, getRefinedStar state = some r → 1 ≤ r →
      (ratingItems facets state max).map (fun it => it.value)
        = ((starThresholds max).filter
            (fun s => decide (s = r ∨ cumulativeCount facets max s ≠ 0))).map
              toString) ∧
    (∀ t it, ratingItemFor facets (getRefinedStar state) max t = some it →
      it.stars = (List.range max).map (fun i => decide (i < t))) ∧
    ((ratingItems facets state max).countP (fun it => it.isRefined) ≤ 1) ∧
    (∀ r, getRefinedStar state = some r → 1 ≤ r → r ≤ max - 1 →
      ∃ it, it ∈ ratingItems facets state max ∧ it.value = toString r ∧
        it.isRefined = true) := by
  refine ⟨fun h => ?_, fun r hr hr1 => ?_, fun t it h => ?_, ?_,
    fun r hr hr1 hr2 => ?_⟩
  · unfold ratingItems
    have hv := filterMap_value_filter facets (getRefinedStar state) max
      (fun _ => true) (starThresholds max)
      (fun s _ => by
        rcases h with h | h <;> rw [h]
        · simp [skipStar_none]
        · simp [skipStar_zero])
    rw [hv, List.filter_true]
  · unfold ratingItems
    apply filterMap_value_filter
    intro s _
    rw [hr, skipStar_pos r s _ hr1]
    by_cases h1 : s = r <;>
      by_cases h2 : cumulativeCount facets max s = 0 <;>
      simp [h1, h2]
  · obtain ⟨-, -, hstars⟩ :=
      ratingItemFor_inv facets (getRefinedStar state) max t it h
    rw [hstars]
    exact stars_pattern max t
  · exact countP_isRefined_le_one facets (getRefinedStar state) max
      (starThresholds max) (starThresholds_nodup max)
  · have hmem : r ∈ starThresholds max := by
      unfold starThresholds
      rw [List.mem_reverse, List.mem_range'_1]
      omega
    have hskip : skipStar (some r) r (cumulativeCount facets max r) = false := by
      rw [skipStar_pos r r _ hr1]
      simp
    obtain ⟨it, hit, hval, -, -, href, -⟩ :=
      ratingItemFor_fields facets (some r) max r hskip
    refine ⟨it, ?_, hval, ?_⟩
    · unfold ratingItems
      rw [hr]
      exact List.mem_filterMap.mpr ⟨r, hmem, hit⟩
    · rw [href]
      simp

/-- Closed instance of `rating_items_shape`: with threshold two refined on
the documented scenario counts, the ladder keeps the refined threshold and
every non-zero-count threshold in descending order. -/
theorem rating_items_shape_witness :
    (ratingItems [(0, 5), (1, 10), (2, 20), (3, 50), (4, 900), (5, 100)]
        [2, 3, 4, 5] 5).map (fun it => it.value)
      = ((starThresholds 5).filter
          (fun s => decide (s = 2 ∨
            cumulativeCount [(0, 5), (1, 10), (2, 20), (3, 50), (4, 900), (5, 100)]
              5 s ≠ 0))).map toString :=
  (rating_items_shape [(0, 5), (1, 10), (2, 20), (3, 50), (4, 900), (5, 100)]
      [2, 3, 4, 5] 5).2.1 2 (by decide) (by decide)

/-- Closed instance of `rating_cumulative_monotone` on the documented
scenario counts. -/
theorem rating_cumulative_monotone_witness :
    cumulativeCount [(0, 5), (1, 10), (2, 20), (3, 50), (4, 900), (5, 100)] 5 4
      ≤ cumulativeCount [(0, 5), (1, 10), (2, 20), (3, 50), (4, 900), (5, 100)] 5 3 :=
  rating_cumulative_monotone [(0, 5), (1, 10), (2, 20), (3, 50), (4, 900), (5, 100)]
    5 3 (by decide) (by decide)

end RatingMenu

namespace HierarchicalMenu

theorem breadcrumb_after_clear (cfg : HMWidgetConfig) (p : HierParams) :
    getHierarchicalFacetBreadcrumb (hm_getWidgetSearchParameters cfg p none)
      = [] := rfl

theorem breadcrumb_after_set (cfg : HMWidgetConfig) (p : HierParams)
    (values : List Str) :
    getHierarchicalFacetBreadcrumb
        (hm_getWidgetSearchParameters cfg p (some values))
      = if (List.intercalate cfg.separator values).isEmpty then []
        else splitOnSep cfg.separator (List.intercalate cfg.separator values) :=
  rfl

theorem hm_uiState_none (p : HierParams)
    (h : getHierarchicalFacetBreadcrumb p = []) :
    hm_getWidgetUiState p = none := by
  unfold hm_getWidgetUiState
  rw [h]
  rfl

theorem hm_uiState_some (p : HierParams)
    (h : getHierarchicalFacetBreadcrumb p ≠ []) :
    hm_getWidgetUiState p = some (getHierarchicalFacetBreadcrumb p) := by
  unfold hm_getWidgetUiState
  cases hq : getHierarchicalFacetBreadcrumb p with
  | nil => exact absurd hq h
  | cons a l => rfl

theorem hm_roundtrip (cfg : HMWidgetConfig) (p : HierParams)
    (h1 : getHierarchicalFacetBreadcrumb p ≠ [] →
      List.intercalate cfg.separator (getHierarchicalFacetBreadcrumb p) ≠ [])
    (h2 : getHierarchicalFacetBreadcrumb p ≠ [] →
      splitOnSep cfg.separator
          (List.intercalate cfg.separator (getHierarchicalFacetBreadcrumb p))
        = getHierarchicalFacetBreadcrumb p) :
    getHierarchicalFacetBreadcrumb
        (hm_getWidgetSearchParameters cfg p (hm_getWidgetUiState p))
      = getHierarchicalFacetBreadcrumb p := by
  by_cases hp : getHierarchicalFacetBreadcrumb p = []
  · rw [hm_uiState_none p hp, breadcrumb_after_clear, hp]
  · rw [hm_uiState_some p hp, breadcrumb_after_set]
    have hjne : (List.intercalate cfg.separator
        (getHierarchicalFacetBreadcrumb p)).isEmpty = false := by
      cases hq : List.intercalate cfg.separator (getHierarchicalFacetBreadcrumb p) with
      | nil => exact absurd hq (h1 hp)
      | cons a l => rfl
    rw [hjne]
    simp only [Bool.false_eq_true, if_false]
    exact h2 hp

theorem prepareListGo_length (limit k : Nat) (l : List FacetValueNode) :
    (prepareListGo limit k l).length ≤ k := by
  induction l generalizing k with
  | nil => cases k <;> simp [prepareListGo]
  | cons x xs ih =>
      cases k with
      | zero => simp [prepareListGo]
      | succ j =>
          simp only [prepareListGo, List.length_cons]
          exact Nat.succ_le_succ (ih j)

mutual

theorem nodeBounded_prepare (limit : Nat) (n : FacetValueNode) :
    nodeBounded limit (prepareNode limit n) = true := by
  cases n with
  | mk name path count isRefined data =>
      cases data with
      | none => rfl
      | some l =>
          simp only [prepareNode, nodeBounded]
          rw [Bool.and_eq_true]
          refine ⟨?_, allBounded_prepare limit limit l⟩
          simpa using prepareListGo_length limit limit l

theorem allBounded_prepare (limit k : Nat) (l : List FacetValueNode) :
    allBounded limit (prepareListGo limit k l) = true := by
  cases l with
  | nil => cases k <;> rfl
  | cons x xs =>
      cases k with
      | zero => rfl
      | succ j =>
          simp only [prepareListGo, allBounded]
          rw [Bool.and_eq_true]
          exact ⟨nodeBounded_prepare limit x, allBounded_prepare limit j xs⟩

end

end HierarchicalMenu

namespace HierarchicalMenu

/-- C7: with the identity transform, every level of the rendered hierarchy
is capped at the active display limit; and an arbitrary `transformItems` is
applied exactly once, to the already-truncated top-level sequence. -/
theorem hm_items_bounded_and_transform :
    (∀ (isShowingMore : Bool) (limit showMoreLimit : Nat)
        (tree : List FacetValueNode),
      levelsBounded (hmGetLimit isShowingMore limit showMoreLimit)
        (hmItems (fun items => items) isShowingMore limit showMoreLimit
          (some tree)) = true) ∧
    (∀ (transformItems : List HierarchicalMenuItem → List HierarchicalMenuItem)
        (isShowingMore : Bool) (limit showMoreLimit : Nat)
        (results : Option (List FacetValueNode)),
      hmItems transformItems isShowingMore limit showMoreLimit results
        = transformItems
            (hmItems (fun items => items) isShowingMore limit showMoreLimit
              results)) := by
  constructor
  · intro isShowingMore limit showMoreLimit tree
    unfold hmItems levelsBounded prepareFacetValues
    rw [Bool.and_eq_true]
    refine ⟨?_, allBounded_prepare _ _ tree⟩
    simpa using prepareListGo_length _ _ tree
  · intro transformItems isShowingMore limit showMoreLimit results
    cases results <;> rfl

/-- C8: `canToggleShowMore` holds exactly when show-more is enabled and
either the flag is already on or the facet values are not exhaustive in the
claim's sense. -/
theorem hm_can_toggle_show_more (showMore isShowingMore resultsPresent : Bool)
    (bound : Option Nat) (limit showMoreLimit facetValuesLength : Nat) :
    canToggleShowMore showMore isShowingMore resultsPresent bound limit
        showMoreLimit facetValuesLength = true
      ↔ (showMore = true ∧
          (isShowingMore = true ∨
            ¬ exhaustiveSpec resultsPresent bound
                (hmGetLimit isShowingMore limit showMoreLimit)
                facetValuesLength)) := by
  unfold canToggleShowMore getHasExhaustiveItems exhaustiveSpec
    boundExceedsLimit hmGetLimit
  cases showMore <;> cases isShowingMore <;> cases resultsPresent <;>
    cases bound <;> simp
  all_goals (try (split_ifs with h))
  all_goals (try (simp at h))
  all_goals omega

/-- C9: once a render has cached its options, toggling show-more flips the
flag, immediately re-renders with exactly the cached render options, and
triggers no search; rendering itself never changes the flag, and a freshly
constructed widget starts with the flag off. -/
theorem hm_toggle_show_more_behavior {RO : Type} (w : HMInstance RO) (ro : RO)
    (h : w.cachedRenderOptions = some ro) :
    ((hmToggleShowMore w).1.isShowingMore = !w.isShowingMore) ∧
    ((hmToggleShowMore w).2
      = [HMEffect.renderFnCall ro (!w.isShowingMore)]) ∧
    (HMEffect.searchCall ∉ (hmToggleShowMore w).2) ∧
    (∀ (w' : HMInstance RO) (ro' : RO),
      (hmRender w' ro').1.isShowingMore = w'.isShowingMore) ∧
    ((hmNewInstance RO).isShowingMore = false) := by
  refine ⟨?_, ?_, ?_, fun w' ro' => rfl, rfl⟩
  · simp [hmToggleShowMore, h, hmRender]
  · simp [hmToggleShowMore, h, hmRender]
  · simp [hmToggleShowMore, h, hmRender]

/-- Closed instance of `hm_toggle_show_more_behavior` over natural-number
render options. -/
theorem hm_toggle_show_more_behavior_witness :
    ((hmToggleShowMore (HMInstance.mk false (some (0 : Nat)))).1.isShowingMore
      = !false) ∧
    ((hmToggleShowMore (HMInstance.mk false (some (0 : Nat)))).2
      = [HMEffect.renderFnCall (0 : Nat) (!false)]) := by
  have h := hm_toggle_show_more_behavior
    (HMInstance.mk false (some (0 : Nat))) 0 rfl
  exact ⟨h.1, h.2.1⟩

/-- C10: `dispose` removes the widget's hierarchical facet together with its
refinement and unconditionally erases the max-values-per-facet bound,
whatever state the parameters held. -/
theorem hm_dispose_clears (p : HierParams) :
    (hmDispose p).facet = none ∧ (hmDispose p).refinements = [] ∧
    (hmDispose p).maxValuesPerFacet = none :=
  ⟨rfl, rfl, rfl⟩

end HierarchicalMenu

/-- C3 fails as stated: a rating refinement whose minimum value `6` exceeds
`max = 5` encodes into the ui state but decodes to an empty refinement, so
the round trip loses the refined threshold. -/
theorem connectors_roundtrip_counterexample :
    RatingMenu.getRefinedStar
        ((RatingMenu.rm_getWidgetSearchParameters ⟨true, [6]⟩ 5
            (RatingMenu.rm_getWidgetUiState ⟨true, [6]⟩)).refinements)
      ≠ RatingMenu.getRefinedStar
          (RatingMenu.RatingParams.mk true [6]).refinements := by decide

/-- C3 (amended): the ui-state round trip preserves the observable
refinement provided — for the rating menu — the refined threshold lies
between one and `max`, and — for the hierarchical menu — the breadcrumb
rejoined with the widget separator is non-empty and splits back to the
same segments. -/
theorem connectors_ui_state_roundtrip :
    (∀ (p : RatingMenu.RatingParams) (max : Nat),
      (∀ r, RatingMenu.getRefinedStar p.refinements = some r →
        1 ≤ r ∧ r ≤ max) →
      RatingMenu.getRefinedStar
          ((RatingMenu.rm_getWidgetSearchParameters p max
              (RatingMenu.rm_getWidgetUiState p)).refinements)
        = RatingMenu.getRefinedStar p.refinements) ∧
    (∀ (cfg : HierarchicalMenu.HMWidgetConfig) (p : HierarchicalMenu.HierParams),
      (HierarchicalMenu.getHierarchicalFacetBreadcrumb p ≠ [] →
        List.intercalate cfg.separator
            (HierarchicalMenu.getHierarchicalFacetBreadcrumb p) ≠ []) →
      (HierarchicalMenu.getHierarchicalFacetBreadcrumb p ≠ [] →
        HierarchicalMenu.splitOnSep cfg.separator
            (List.intercalate cfg.separator
              (HierarchicalMenu.getHierarchicalFacetBreadcrumb p))
          = HierarchicalMenu.getHierarchicalFacetBreadcrumb p) →
      HierarchicalMenu.getHierarchicalFacetBreadcrumb
          (HierarchicalMenu.hm_getWidgetSearchParameters cfg p
            (HierarchicalMenu.hm_getWidgetUiState p))
        = HierarchicalMenu.getHierarchicalFacetBreadcrumb p) :=
  ⟨fun p max h => RatingMenu.rm_roundtrip p max h,
   fun cfg p h1 h2 => HierarchicalMenu.hm_roundtrip cfg p h1 h2⟩

/-- Closed instance of `connectors_ui_state_roundtrip`: a three-to-five
rating refinement and a two-level breadcrumb both survive the round trip. -/
theorem connectors_ui_state_roundtrip_witness :
    RatingMenu.getRefinedStar
        ((RatingMenu.rm_getWidgetSearchParameters ⟨true, [3, 4, 5]⟩ 5
            (RatingMenu.rm_getWidgetUiState ⟨true, [3, 4, 5]⟩)).refinements)
      = RatingMenu.getRefinedStar
          (RatingMenu.RatingParams.mk true [3, 4, 5]).refinements ∧
    HierarchicalMenu.getHierarchicalFacetBreadcrumb
        (HierarchicalMenu.hm_getWidgetSearchParameters
          ⟨["cat_lvl0", "cat_lvl1"], " > ".toList, none, true, 10, false, 20⟩
          ⟨some ⟨["cat_lvl0", "cat_lvl1"], " > ".toList, none, true⟩,
            ["Shoes > Sneakers".toList], some 10⟩
          (HierarchicalMenu.hm_getWidgetUiState
            ⟨some ⟨["cat_lvl0", "cat_lvl1"], " > ".toList, none, true⟩,
              ["Shoes > Sneakers".toList], some 10⟩))
      = HierarchicalMenu.getHierarchicalFacetBreadcrumb
          ⟨some ⟨["cat_lvl0", "cat_lvl1"], " > ".toList, none, true⟩,
            ["Shoes > Sneakers".toList], some 10⟩ :=
  ⟨connectors_ui_state_roundtrip.1 ⟨true, [3, 4, 5]⟩ 5
    (by
      intro r h
      have h3 : RatingMenu.getRefinedStar [3, 4, 5] = some 3 := by decide
      rw [h3] at h
      have : (3 : Nat) = r := Option.some.inj h
      omega),
   connectors_ui_state_roundtrip.2
    ⟨["cat_lvl0", "cat_lvl1"], " > ".toList, none, true, 10, false, 20⟩
    ⟨some ⟨["cat_lvl0", "cat_lvl1"], " > ".toList, none, true⟩,
      ["Shoes > Sneakers".toList], some 10⟩
    (by decide) (by decide)⟩

end InstantSearchConnectors
